import Mathlib

/-!
# Verification of the `geotiles` hexasphere construction pipeline

This file is a shallow embedding, in Lean 4, of the core construction pipeline
of the `geotiles` Rust crate (icosahedron subdivision → sphere projection →
dual-tile construction → neighbor resolution), together with theorems settling
the specification claims about that pipeline.

## Modelling conventions

* The crate computes with IEEE-754 `f64`.  The embedding idealizes finite
  `f64` arithmetic as exact rational arithmetic: every arithmetic expression of
  the source is translated literally, but evaluated over `ℚ` instead of
  binary64.  Mathlib's `Rat` operations do not reduce inside the kernel, so the
  file carries its own kernel-computable rational type `Q` (an integer
  numerator/denominator pair kept in lowest terms with positive denominator by
  the smart constructor `qnorm`).  All pipeline values are built through
  `qnorm`, so denominators are always positive.
* `f64::sqrt` (correctly rounded to 53 bits) is modelled by `ratSqrt`, a
  rational approximation of the exact square root accurate to about `10⁻¹²`
  in absolute terms, computed with a bounded integer binary search (`isqrt`).
  Every quantity the pipeline compares against a threshold is separated from
  that threshold by many orders of magnitude more than both the model's
  `10⁻¹²` granularity and `f64`'s rounding error, so the comparison outcomes
  agree with the source.
* `f64::round` (round half away from zero) is modelled exactly by
  `qRoundAway`.
* Rust `HashMap` key sets are modelled as insertion-ordered duplicate-free
  lists.  Where the source iterates a `HashMap` (an order unspecified by Rust
  and randomized between runs), the model fixes first-insertion order; the
  place where that order is observable in the result — the enumeration of
  `point_to_faces` that fixes the tile order — is additionally exposed as an
  explicit `order` parameter (`hexasphereTilesOrdered`) so that claims about
  run-to-run determinism can be stated faithfully.
* `Point`'s `Display`/`Hash` string `"x,y,z"` is modelled by the point value
  itself: Rust's `f64` `Display` is injective on distinct finite values, so
  string equality coincides with pointwise value equality (the sign of zero,
  where `Display` is finer than `==`, is treated in a dedicated refined model
  `PointF` used by the hashing claim).
-/

set_option maxRecDepth 100000
set_option maxHeartbeats 4000000

namespace Geotiles

/-- Bounded binary search for the floor of the integer square root.
`isqrtGo n fuel lo hi` maintains `lo² ≤ n < hi²`. -/
def isqrtGo (n : ℕ) : ℕ → ℕ → ℕ → ℕ
  | 0, lo, _ => lo
  | fuel+1, lo, hi =>
    if hi ≤ lo + 1 then lo
    else
      let mid := (lo + hi) / 2
      if mid * mid ≤ n then isqrtGo n fuel mid hi else isqrtGo n fuel lo mid

/-- Floor of the integer square root, by binary search (400 halvings cover all
numbers below `2⁴⁰⁰`, far beyond every quantity in this development). -/
def isqrt (n : ℕ) : ℕ := isqrtGo n 400 0 (n + 1)

/-- Kernel-computable rational number: numerator and denominator.
All values built by this file's operations are in lowest terms with a positive
denominator (see `qnorm`). -/
structure Q where
  n : Int
  d : Int
  deriving DecidableEq, Repr

/-- Smart constructor: reduce `num/den` to lowest terms with positive
denominator.  A zero denominator (which cannot arise from the pipeline's
finite-value paths) is mapped to `0`. -/
def qnorm (num den : Int) : Q :=
  if den = 0 then ⟨0, 1⟩
  else
    let num' := if den < 0 then -num else num
    let den' := if den < 0 then -den else den
    let g : Int := Int.gcd num' den'
    ⟨num' / g, den' / g⟩

instance : OfNat Q n := ⟨⟨(n : Int), 1⟩⟩

def qAdd (a b : Q) : Q := qnorm (a.n * b.d + b.n * a.d) (a.d * b.d)

def qSub (a b : Q) : Q := qnorm (a.n * b.d - b.n * a.d) (a.d * b.d)

def qMul (a b : Q) : Q := qnorm (a.n * b.n) (a.d * b.d)

def qNeg (a : Q) : Q := ⟨-a.n, a.d⟩

/-- Division.  Division by zero yields `0` here; the single code path where the
source can divide by zero (`Point::project` on the origin, which produces
non-finite `f64`s) is treated by the refined model `projectF` below. -/
def qDiv (a b : Q) : Q := qnorm (a.n * b.d) (a.d * b.n)

instance : Add Q := ⟨qAdd⟩
instance : Sub Q := ⟨qSub⟩
instance : Mul Q := ⟨qMul⟩
instance : Div Q := ⟨qDiv⟩
instance : Neg Q := ⟨qNeg⟩

/-- Order on `Q` by cross multiplication (valid because all pipeline values
have positive denominators). -/
instance : LE Q := ⟨fun a b => a.n * b.d ≤ b.n * a.d⟩

instance : LT Q := ⟨fun a b => a.n * b.d < b.n * a.d⟩

instance (a b : Q) : Decidable (a ≤ b) := inferInstanceAs (Decidable (a.n * b.d ≤ b.n * a.d))

instance (a b : Q) : Decidable (a < b) := inferInstanceAs (Decidable (a.n * b.d < b.n * a.d))

/-- `f64::clamp`. -/
def qClamp (x lo hi : Q) : Q := if x < lo then lo else if hi < x then hi else x

/-- Round half away from zero of the fraction `num/den` (`den > 0`): the exact
semantics of `f64::round` applied to the represented value. -/
def qRoundAway (num den : Int) : Int :=
  if 0 ≤ num then (2 * num + den) / (2 * den) else -((2 * (-num) + den) / (2 * den))

/-- Coordinate quantization used by `Point::new`:
`(x * 1000.0).round() / 1000.0`. -/
def quant (x : Q) : Q := qnorm (qRoundAway (x.n * 1000) x.d) 1000

/-- Model of `f64::sqrt` at rational inputs: a rational approximation of the
exact square root with absolute error below `10⁻¹²`.  Inputs in this
development are sums of squares, hence nonnegative. -/
def ratSqrt (x : Q) : Q :=
  if x.n ≤ 0 then ⟨0, 1⟩
  else qnorm (isqrt (x.n.toNat * x.d.toNat * 10 ^ 24)) (x.d * 10 ^ 12)

/-! ## `src/geometry/point.rs` -/

/-- `Point`: a 3D point.  Coordinates are quantized to 3 decimal places by
`Point::new` (`Point.new` below); the raw constructor mirrors the places where
the source writes fields directly (`Point::project`). -/
structure Point where
  x : Q
  y : Q
  z : Q
  deriving DecidableEq, Repr

/-- `Point::new`: quantizes each coordinate to 3 decimal places. -/
def Point.new (x y z : Q) : Point := ⟨quant x, quant y, quant z⟩

/-- `Point::distance_to`. -/
def Point.distanceTo (p other : Point) : Q :=
  ratSqrt ((p.x - other.x) * (p.x - other.x) + (p.y - other.y) * (p.y - other.y)
    + (p.z - other.z) * (p.z - other.z))

/-- `Point::segment`: the point `percent` of the way from `self` to `other`
(percent clamped to `[0,1]`), quantized through `Point::new`. -/
def Point.segment (p other : Point) (percent : Q) : Point :=
  let percent := qClamp percent 0 1
  Point.new (p.x * (1 - percent) + other.x * percent)
    (p.y * (1 - percent) + other.y * percent)
    (p.z * (1 - percent) + other.z * percent)

/-- `Point::project`: rescale the point to distance `radius * percent` from the
origin.  The source divides by the magnitude with no zero check and writes the
raw (unquantized) products back into the fields.  For the origin the `f64`
division produces non-finite values; the refined model `projectF` below keeps
that distinction, while here division by zero returns `0`. -/
def Point.project (p : Point) (radius percent : Q) : Point :=
  let percent := qClamp percent 0 1
  let mag := ratSqrt (p.x * p.x + p.y * p.y + p.z * p.z)
  let ratioQ := radius / mag
  ⟨p.x * ratioQ * percent, p.y * ratioQ * percent, p.z * ratioQ * percent⟩

/-! ## `src/geometry/vector.rs` -/

/-- `Vector3`: a free 3D vector; not quantized. -/
structure Vector3 where
  x : Q
  y : Q
  z : Q
  deriving DecidableEq, Repr

/-- `Vector3::normalize`: unit vector in the same direction, or the zero vector
for zero magnitude. -/
def Vector3.normalize (v : Vector3) : Vector3 :=
  let mag := ratSqrt (v.x * v.x + v.y * v.y + v.z * v.z)
  if mag = 0 then ⟨0, 0, 0⟩ else ⟨v.x / mag, v.y / mag, v.z / mag⟩

/-- `Vector3::cross`. -/
def Vector3.cross (v other : Vector3) : Vector3 :=
  ⟨v.y * other.z - v.z * other.y, v.z * other.x - v.x * other.z,
    v.x * other.y - v.y * other.x⟩

/-- `Vector3::dot`. -/
def Vector3.dot (v other : Vector3) : Q :=
  v.x * other.x + v.y * other.y + v.z * other.z

/-! ## `src/geometry/face.rs` -/

/-- `Face`: a triangular face with an id.  The cached centroid
(`centroid: Option<Point>` in the source) is pure memoization of
`get_centroid`'s value and is modelled by computing the centroid on demand. -/
structure Face where
  id : ℕ
  p0 : Point
  p1 : Point
  p2 : Point
  deriving DecidableEq, Repr

def Face.points (f : Face) : List Point := [f.p0, f.p1, f.p2]

/-- `Face::get_centroid`: the (quantized) average of the three vertices.  The
source memoizes the result; the value is identical on every access. -/
def Face.getCentroid (f : Face) : Point :=
  Point.new ((f.p0.x + f.p1.x + f.p2.x) / 3) ((f.p0.y + f.p1.y + f.p2.y) / 3)
    ((f.p0.z + f.p1.z + f.p2.z) / 3)

/-- Modelled from the spec: `Face::calculate_centroid` is called by the angular
sorter (`sort_faces_around_point`) but its definition is not among the provided
sources.  Per the spec (§4.6, §3) it is the face's centroid — the same value
`get_centroid` computes and caches. -/
def Face.calculateCentroid (f : Face) : Point := f.getCentroid

/-- `Face::get_other_points`: the vertices of the face that differ from the
given point.  (When the given point is not a vertex of the face — which is
what actually happens during tile construction, where a projected center is
compared against unprojected vertices — all three vertices are returned.) -/
def Face.getOtherPoints (f : Face) (point : Point) : List Point :=
  f.points.filter (fun p => decide ¬(p = point))

/-! ## `src/utils/math.rs` -/

/-- `calculate_surface_normal`: cross product of two edge vectors, with each
intermediate `Point::new` quantizing its coordinates as in the source. -/
def calculateSurfaceNormal (p1 p2 p3 : Point) : Point :=
  let u := Point.new (p2.x - p1.x) (p2.y - p1.y) (p2.z - p1.z)
  let v := Point.new (p3.x - p1.x) (p3.y - p1.y) (p3.z - p1.z)
  Point.new (u.y * v.z - u.z * v.y) (u.z * v.x - u.x * v.z) (u.x * v.y - u.y * v.x)

/-- `pointing_away_from_origin`: componentwise sign agreement. -/
def pointingAwayFromOrigin (point vector : Point) : Bool :=
  decide (0 ≤ point.x * vector.x) && decide (0 ≤ point.y * vector.y)
    && decide (0 ≤ point.z * vector.z)

/-- `get_or_insert_point`: point deduplication through the shared pool.  The
`HashMap<Point, Point>` (key = value) is modelled as an insertion-ordered
duplicate-free list; the returned canonical instance is equal (as a value) to
the argument. -/
def getOrInsertPoint (point : Point) (points : List Point) : Point × List Point :=
  if point ∈ points then (point, points) else (point, points ++ [point])

/-- `subdivide_edge`: `count + 1` points interpolated from `p1` to `p2`
(endpoints included), each passed through the dedup pool. -/
def subdivideEdge (p1 p2 : Point) (count : ℕ) (points : List Point) :
    List Point × List Point :=
  let s0 := getOrInsertPoint p1 points
  let stepped := (List.range (count - 1)).foldl
    (fun (st : List Point × List Point) i0 =>
      let i := i0 + 1
      let t : Q := qnorm (Int.ofNat i) (Int.ofNat count)
      let np := Point.new (p1.x * (1 - t) + p2.x * t) (p1.y * (1 - t) + p2.y * t)
        (p1.z * (1 - t) + p2.z * t)
      let r := getOrInsertPoint np st.2
      (st.1 ++ [r.1], r.2))
    ([s0.1], s0.2)
  let s2 := getOrInsertPoint p2 stepped.2
  (stepped.1 ++ [s2.1], s2.2)

/-- State threaded through `subdivide_face`'s row loop: faces emitted so far,
the previous row, the point pool, and the face-id counter. -/
structure SubdivideState where
  newFaces : List Face
  prevRow : List Point
  points : List Point
  faceId : ℕ

def defaultPoint : Point := ⟨0, 0, 0⟩

/-- Inner loop of `subdivide_face` (`for j in 0..i`): emit the downward
triangle `(prev[j], cur[j], cur[j+1])` and, for `j > 0`, the upward triangle
`(prev[j-1], prev[j], cur[j])`. -/
def subdivideRowStep (currentRow : List Point) (st : SubdivideState) (j : ℕ) :
    SubdivideState :=
  let f1 := Face.mk st.faceId (st.prevRow.getD j defaultPoint)
    (currentRow.getD j defaultPoint) (currentRow.getD (j + 1) defaultPoint)
  let st := { st with newFaces := st.newFaces ++ [f1], faceId := st.faceId + 1 }
  if 0 < j then
    let f2 := Face.mk st.faceId (st.prevRow.getD (j - 1) defaultPoint)
      (st.prevRow.getD j defaultPoint) (currentRow.getD j defaultPoint)
    { st with newFaces := st.newFaces ++ [f2], faceId := st.faceId + 1 }
  else st

/-- `subdivide_face`: split a triangle into a grid with `numDivisions` segments
per edge.  `numDivisions = 0` returns the face unchanged.  Returns the emitted
faces, the updated pool and the updated face-id counter. -/
def subdivideFace (face : Face) (numDivisions : ℕ) (points : List Point)
    (faceId : ℕ) : List Face × List Point × ℕ :=
  if numDivisions = 0 then ([face], points, faceId)
  else
    let l := subdivideEdge face.p0 face.p1 numDivisions points
    let r := subdivideEdge face.p0 face.p2 numDivisions l.2
    let final := (List.range numDivisions).foldl
      (fun (st : SubdivideState) i0 =>
        let i := i0 + 1
        let cr := subdivideEdge (l.1.getD i defaultPoint) (r.1.getD i defaultPoint) i st.points
        let st := { st with points := cr.2 }
        let st := (List.range i).foldl (subdivideRowStep cr.1) st
        { st with prevRow := cr.1 })
      ⟨[], [face.p0], r.2, faceId⟩
    (final.newFaces, final.points, final.faceId)

/-- `find_projected_point`'s acceptance test: the source normalizes both points
with `f64` square roots and accepts when the Euclidean distance of the two unit
vectors is below `0.001`.  Over exact arithmetic that comparison is equivalent
to the square-free form used here: with `dp = o·p`, `A = o·o`, `B = p·p`,
`|o/‖o‖ − p/‖p‖| < 10⁻³  ↔  dp > 0 ∧ 10¹⁴·dp² > (10⁷−5)²·A·B`
(both sides fail when either point is the origin, where the source's `f64`
computation produces NaN and hence no match). -/
def directionsMatch (original projected : Point) : Bool :=
  let dp := original.x * projected.x + original.y * projected.y + original.z * projected.z
  let a := original.x * original.x + original.y * original.y + original.z * original.z
  let b := projected.x * projected.x + projected.y * projected.y + projected.z * projected.z
  decide ((0 : Q) < dp) &&
    decide ((⟨(10:Int)^7 - 5, 1⟩ : Q) * (⟨(10:Int)^7 - 5, 1⟩ : Q) * a * b
      < (⟨(10:Int)^14, 1⟩ : Q) * dp * dp)

/-- `find_projected_point`: linear scan of the projected pool for the first
point whose direction matches the original within tolerance. -/
def findProjectedPoint (original : Point) (projectedPoints : List Point) :
    Option Point :=
  projectedPoints.find? (directionsMatch original)

/-- Total preorder on tangent-plane components `(xComp, yComp)` matching the
ascending order of `f64::atan2(yComp, xComp)` (range `(−π, π]`, with
`atan2(0, 0) = 0`): first by half-plane rank, then within the open upper and
lower half-planes by the sign of the cross product (two vectors in one open
half-plane subtend an angle below `π`, so `θa ≤ θb ↔ xa·yb − ya·xb ≥ 0`). -/
def angleRank (a : Q × Q) : ℕ :=
  if a.2 < 0 then 0
  else if 0 < a.2 then 2
  else if a.1 < 0 then 3
  else 1

def angleLe (a b : Q × Q) : Bool :=
  let ra := angleRank a
  let rb := angleRank b
  if ra = rb then
    if ra = 0 || ra = 2 then decide ((0 : Q) ≤ a.1 * b.2 - a.2 * b.1) else true
  else decide (ra < rb)

/-- Stable insertion into a sorted list: the new element goes after every
existing element `y` with `le y x`.  Used to model Rust's stable `sort_by`. -/
def insertSorted (le : α → α → Bool) (x : α) : List α → List α
  | [] => [x]
  | y :: ys => if le y x then y :: insertSorted le x ys else x :: y :: ys

/-- Stable insertion sort; for a total preorder this produces the same output
as any stable sort, in particular Rust's `slice::sort_by`. -/
def stableSort (le : α → α → Bool) : List α → List α
  | [] => []
  | x :: xs => insertSorted le x (stableSort le xs)

/-- `sort_faces_around_point`: build the local tangent frame from the first
face's centroid, compute each face's tangent-plane components, stable-sort by
the `atan2` angle, and reorder the faces accordingly.  Lists of at most two
faces are returned unchanged. -/
def sortFacesAroundPoint (faces : List Face) (point : Point) : List Face :=
  if faces.length ≤ 2 then faces
  else
    match faces with
    | [] => faces
    | face :: _ =>
      let centroid := face.calculateCentroid
      let referenceDirection := (Vector3.mk (centroid.x - point.x) (centroid.y - point.y)
        (centroid.z - point.z)).normalize
      let upDirection := (Vector3.mk point.x point.y point.z).normalize
      let rightDirection := referenceDirection
      let forwardDirection := (upDirection.cross rightDirection).normalize
      let faceAngles := faces.enum.map (fun p =>
        let c := p.2.calculateCentroid
        let direction := (Vector3.mk (c.x - point.x) (c.y - point.y)
          (c.z - point.z)).normalize
        (p.1, (direction.dot rightDirection, direction.dot forwardDirection)))
      let sorted := stableSort (fun a b => angleLe a.2 b.2) faceAngles
      sorted.map (fun p => faces.getD p.1 face)

/-! ## `src/tile/core.rs` -/

/-- `Tile`: center, ordered boundary, raw neighbor identities (the source
stores the `Display` strings of points; the model stores the points, see the
module header), and resolved neighbor indices. -/
structure Tile where
  centerPoint : Point
  boundary : List Point
  neighborIds : List Point
  neighbors : List ℕ
  deriving DecidableEq, Repr

/-- Duplicate-free insertion-ordered list of the given points: models the
`HashMap<String, bool>` key set that `Tile::new` accumulates. -/
def dedupKeepFirst (l : List Point) : List Point :=
  l.foldl (fun acc p => if p ∈ acc then acc else acc ++ [p]) []

/-- `Tile::fix_boundary_orientation`: reverse the boundary when the normal of
boundary points `(1,2,0)` does not point away from the origin like the center
does. -/
def Tile.fixBoundaryOrientation (t : Tile) : Tile :=
  if 3 ≤ t.boundary.length then
    let normal := calculateSurfaceNormal (t.boundary.getD 1 defaultPoint)
      (t.boundary.getD 2 defaultPoint) (t.boundary.getD 0 defaultPoint)
    if !pointingAwayFromOrigin t.centerPoint normal then
      { t with boundary := t.boundary.reverse }
    else t
  else t

/-- `Tile::new`: clamp `hex_size` to `[0.01, 1]`; for each face push the point
`hex_size` of the way from the center to the face centroid; collect as raw
neighbor identities the faces' points other than the center point (deduped);
then fix the boundary orientation.  Resolved neighbors start empty. -/
def Tile.new (centerPoint : Point) (faces : List Face) (hexSize : Q) : Tile :=
  let hexSize := qClamp hexSize (qnorm 1 100) 1
  let boundary := faces.map (fun f => centerPoint.segment f.getCentroid hexSize)
  let neighborIds := dedupKeepFirst (faces.flatMap (fun f => f.getOtherPoints centerPoint))
  Tile.fixBoundaryOrientation ⟨centerPoint, boundary, neighborIds, []⟩

/-- `Tile::is_hexagon`. -/
def Tile.isHexagon (t : Tile) : Bool := decide (t.boundary.length = 6)

/-- `Tile::get_average_radius`: average distance from the center to the
boundary points, `0` for an empty boundary. -/
def Tile.getAverageRadius (t : Tile) : Q :=
  if t.boundary.isEmpty then 0
  else
    let total := t.boundary.foldl (fun acc p => acc + t.centerPoint.distanceTo p) 0
    total / ⟨Int.ofNat t.boundary.length, 1⟩

/-- `TileOrientation` (src/tile/orientation.rs): right/up/forward frame. -/
structure TileOrientation where
  right : Vector3
  up : Vector3
  forward : Vector3
  deriving DecidableEq, Repr

/-- `Tile::get_orientation`: `None` for an empty boundary; otherwise the frame
built from the first boundary point and the outward normal. -/
def Tile.getOrientation (t : Tile) : Option TileOrientation :=
  if t.boundary.isEmpty then none
  else
    let firstVertex := t.boundary.getD 0 defaultPoint
    let right := (Vector3.mk (firstVertex.x - t.centerPoint.x)
      (firstVertex.y - t.centerPoint.y) (firstVertex.z - t.centerPoint.z)).normalize
    let up := (Vector3.mk t.centerPoint.x t.centerPoint.y t.centerPoint.z).normalize
    let forward := (right.cross up).normalize
    let right := (up.cross forward).normalize
    some ⟨right, up, forward⟩

/-- `RegularHexagonParams` (src/approximation/regular_hexagon.rs): center,
radius and orientation of an idealized regular hexagon. -/
structure RegularHexagonParams where
  center : Point
  radius : Q
  orientation : TileOrientation
  deriving DecidableEq, Repr

/-- `Tile::get_regular_hexagon_params`: `None` unless the tile is a hexagon;
otherwise the tile's center, its average radius, and its orientation. -/
def Tile.getRegularHexagonParams (t : Tile) : Option RegularHexagonParams :=
  if !t.isHexagon then none
  else
    match t.getOrientation with
    | none => none
    | some orientation => some ⟨t.centerPoint, t.getAverageRadius, orientation⟩

/-! ## `src/hexasphere/hexasphere.rs`: `Hexasphere::new` -/

/-- The golden-ratio constant `tao = 1.61803399` of `Hexasphere::new`. -/
def tao : Q := qnorm 161803399 100000000

/-- The 12 icosahedron corners of `Hexasphere::new` (coordinates scaled by
1000, quantized through `Point::new`). -/
def corners : List Point :=
  [Point.new 1000 (tao * 1000) 0,
   Point.new (-(1000 : Q)) (tao * 1000) 0,
   Point.new 1000 (-(tao * 1000)) 0,
   Point.new (-(1000 : Q)) (-(tao * 1000)) 0,
   Point.new 0 1000 (tao * 1000),
   Point.new 0 (-(1000 : Q)) (tao * 1000),
   Point.new 0 1000 (-(tao * 1000)),
   Point.new 0 (-(1000 : Q)) (-(tao * 1000)),
   Point.new (tao * 1000) 0 1000,
   Point.new (-(tao * 1000)) 0 1000,
   Point.new (tao * 1000) 0 (-(1000 : Q)),
   Point.new (-(tao * 1000)) 0 (-(1000 : Q))]

/-- The 20-face adjacency table of the icosahedron. -/
def faceIndexTable : List (ℕ × ℕ × ℕ) :=
  [(0, 1, 4), (1, 9, 4), (4, 9, 5), (5, 9, 3), (2, 3, 7), (3, 2, 5), (7, 10, 2),
   (0, 8, 10), (0, 4, 8), (8, 2, 10), (8, 4, 5), (8, 5, 2), (1, 0, 6), (11, 1, 6),
   (3, 9, 11), (6, 10, 7), (3, 11, 7), (11, 6, 7), (6, 0, 10), (9, 1, 11)]

/-- The initial icosahedron faces, with ids `0..19`. -/
def icosaFaces : List Face :=
  faceIndexTable.enum.map (fun e =>
    Face.mk e.1 (corners.getD e.2.1 defaultPoint) (corners.getD e.2.2.1 defaultPoint)
      (corners.getD e.2.2.2 defaultPoint))

/-- The subdivision phase of `Hexasphere::new`: seed the pool with the corners,
then subdivide every icosahedron face, threading the pool and the face-id
counter (starting at 20).  Returns the subdivided faces and the point pool. -/
def subdividedFaces (numDivisions : ℕ) : List Face × List Point :=
  let pool0 := corners.foldl (fun acc c => (getOrInsertPoint c acc).2) []
  let final := icosaFaces.foldl
    (fun (st : List Face × List Point × ℕ) f =>
      let r := subdivideFace f numDivisions st.2.1 st.2.2
      (st.1 ++ r.1, r.2.1, r.2.2))
    ([], pool0, icosaFaces.length)
  (final.1, final.2.1)

/-- The projection phase: project every pool point onto the sphere
(`percent = 1.0`) and collect the distinct projected points
(`HashMap` keyed on the raw projected coordinates). -/
def projectedPoints (radius : Q) (pool : List Point) : List Point :=
  pool.foldl (fun acc p =>
    let pr := p.project radius 1
    if pr ∈ acc then acc else acc ++ [pr]) []

/-- One vertex step of the grouping phase: look up the projected counterpart
and, when found, append the face index to that projected point's entry
(`point_to_faces.entry(..).or_insert_with(Vec::new).push(face_idx)`).
A failed lookup leaves the accumulator unchanged — the vertex is silently
skipped, construction does not fail. -/
def processVertex (projected : List Point) (acc : List (Point × List ℕ))
    (faceIdx : ℕ) (p : Point) : List (Point × List ℕ) :=
  match findProjectedPoint p projected with
  | some pp =>
    if (acc.find? (fun e => decide (e.1 = pp))).isSome then
      acc.map (fun e => if e.1 = pp then (e.1, e.2 ++ [faceIdx]) else e)
    else acc ++ [(pp, [faceIdx])]
  | none => acc

/-- The grouping phase of `Hexasphere::new` (`point_to_faces`): for every face
and each of its three vertices, resolve the vertex to its projected counterpart
and record the face index under it.  Entries are kept in first-touch order. -/
def pointToFaces (faces : List Face) (projected : List Point) :
    List (Point × List ℕ) :=
  faces.enum.foldl (fun acc e =>
    e.2.points.foldl (fun acc p => processVertex projected acc e.1 p) acc) []

def defaultFace : Face := ⟨0, defaultPoint, defaultPoint, defaultPoint⟩

/-- Tile creation for one `point_to_faces` entry: clone the group's faces,
sort them around the projected point, and build the tile. -/
def tileOfGroup (newFaces : List Face) (hexSize : Q) (g : Point × List ℕ) : Tile :=
  let pointFaces := g.2.map (fun idx => newFaces.getD idx defaultFace)
  let sorted := sortFacesAroundPoint pointFaces g.1
  Tile.new g.1 sorted hexSize

/-- Scan for the index of the first tile whose center-point identity equals
`id`, starting the count at `i`. -/
def lookupIdxGo (id : Point) : List Tile → ℕ → Option ℕ
  | [], _ => none
  | t :: ts, i => if t.centerPoint = id then some i else lookupIdxGo id ts (i + 1)

/-- `tile_lookup.get(id)`: index of the first tile whose center-point identity
equals `id` (centers are pairwise distinct in any real construction, so first
match agrees with the source's `HashMap`). -/
def lookupIdx (tiles : List Tile) (id : Point) : Option ℕ :=
  lookupIdxGo id tiles 0

/-- The neighbor-resolution post-pass of `Hexasphere::new`: translate every
tile's raw neighbor identities into indices of the tile list, dropping
identities with no match. -/
def resolveNeighbors (tiles : List Tile) : List Tile :=
  tiles.map (fun t => { t with neighbors := t.neighborIds.filterMap (lookupIdx tiles) })

/-- The construction state just before tile creation: the subdivided faces and
the `point_to_faces` entry list (in first-touch order). -/
def constructionGroups (radius : Q) (numDivisions : ℕ) :
    List Face × List (Point × List ℕ) :=
  let sub := subdividedFaces numDivisions
  (sub.1, pointToFaces sub.1 (projectedPoints radius sub.2))

/-- `Hexasphere::new` with the iteration order of the `point_to_faces` map made
explicit: `order` lists positions into the first-touch-ordered entry list.
Rust's `HashMap` iteration order is unspecified and randomized between runs;
every permutation of the entry positions is a possible enumeration. -/
def hexasphereTilesOrdered (radius : Q) (numDivisions : ℕ) (hexSize : Q)
    (order : List ℕ) : List Tile :=
  let cg := constructionGroups radius numDivisions
  let orderedGroups := order.filterMap (fun i => cg.2.get? i)
  resolveNeighbors (orderedGroups.map (tileOfGroup cg.1 hexSize))

/-- `Hexasphere::new` under the canonical (first-touch) enumeration order: the
full tile list of the constructed hexasphere. -/
def hexasphereTiles (radius : Q) (numDivisions : ℕ) (hexSize : Q) : List Tile :=
  hexasphereTilesOrdered radius numDivisions hexSize
    (List.range (constructionGroups radius numDivisions).2.length)

/-! ## Refined model of `Point::project` with IEEE non-finite propagation

Used by the claim about projecting an origin-coincident point.  A coordinate is
`some q` when the `f64` computation produces a finite value whose exact
idealization is `q`, and `none` when it produces a non-finite value (`±inf` or
NaN).  Dividing a positive radius by the zero magnitude gives `+inf`; the
subsequent multiplication by the zero coordinate gives NaN; either way the
coordinate is non-finite but a `Point` is still returned — the source contains
no zero check, assertion, or error path. -/

def FVal := Option Q

instance : DecidableEq FVal := inferInstanceAs (DecidableEq (Option Q))

/-- Finite-aware multiplication: any non-finite operand contaminates the
result (`0 * inf = NaN`, `x * NaN = NaN`, …). -/
def fMul (a b : FVal) : FVal :=
  match a, b with
  | some x, some y => some (qMul x y)
  | _, _ => none

/-- Finite-aware division: division by zero is non-finite (`±inf` for a
nonzero numerator, NaN for `0/0`). -/
def fDiv (a b : FVal) : FVal :=
  match a, b with
  | some x, some y => if y.n = 0 then none else some (qDiv x y)
  | _, _ => none

/-- `Point::project` in the refined model: magnitude, ratio, and the three
coordinate writes, with non-finite propagation. -/
def projectF (x y z radius percent : Q) : FVal × FVal × FVal :=
  let percent := qClamp percent 0 1
  let mag := ratSqrt (qAdd (qAdd (qMul x x) (qMul y y)) (qMul z z))
  let ratioF := fDiv (some radius) (some mag)
  (fMul (fMul (some x) ratioF) (some percent),
   fMul (fMul (some y) ratioF) (some percent),
   fMul (fMul (some z) ratioF) (some percent))

/-! ## Refined model of `Point` equality vs. hashing with signed zero

Used by the claim that `Point`s that compare equal also hash equal.  `f64`
distinguishes `0.0` from `-0.0`: they compare equal under `==` (hence under
`Point`'s derived `PartialEq`), but `Display` prints them as `"0"` and `"-0"`,
so the strings fed to the hasher differ.  `Point::new(x, ..)` produces `-0.0`
exactly when `x` is negative and `(x*1000).round()` rounds to zero (IEEE
rounding preserves the sign of zero).  A quantized coordinate is modelled as
its integer value in thousandths plus a negative-zero flag. -/

structure CoordF where
  val : Int
  negZero : Bool
  deriving DecidableEq, Repr

/-- One coordinate of `Point::new` at a real (rational) input: the rounded
value in thousandths, flagged as `-0.0` when a negative input rounds to zero. -/
def coordF (x : Q) : CoordF :=
  let v := qRoundAway (x.n * 1000) x.d
  ⟨v, decide (v = 0) && decide (x.n < 0)⟩

/-- `PointF`: the three quantized coordinates of a constructed point. -/
structure PointF where
  cx : CoordF
  cy : CoordF
  cz : CoordF
  deriving DecidableEq, Repr

/-- `Point::new` in the refined model. -/
def PointF.new (x y z : Q) : PointF := ⟨coordF x, coordF y, coordF z⟩

/-- `Point`'s derived `PartialEq`: `f64 ==` ignores the sign of zero, so
equality compares only the numeric values. -/
def PointF.eq (p q : PointF) : Bool :=
  decide (p.cx.val = q.cx.val) && decide (p.cy.val = q.cy.val)
    && decide (p.cz.val = q.cz.val)

/-- The `Display` string `"x,y,z"` that `Point`'s `Hash` implementation feeds
to the hasher, modelled injectively: `f64::Display` distinguishes `-0.0`
(printed `"-0"`) from `0.0` (printed `"0"`) and is injective on the quantized
values, so the string is determined by — and determines — the three
`(value, sign-of-zero)` pairs. -/
def PointF.hashKey (p : PointF) : CoordF × CoordF × CoordF := (p.cx, p.cy, p.cz)

/-! ## Concrete instances used by witnesses and counterexamples -/

/-- A concrete subdivided face (icosahedron-scale coordinates). -/
def faceW : Face :=
  Face.mk 0 (Point.new 1000 0 0) (Point.new 0 1000 0) (Point.new 0 0 1000)

/-- A second concrete face sharing `faceW`'s first vertex. -/
def faceW2 : Face :=
  Face.mk 1 (Point.new 1000 0 0) (Point.new 0 0 (-(1000 : Q))) (Point.new 0 1000 0)

/-- A projected pool containing a single point whose direction matches only the
third vertex of `faceW`. -/
def poolW : List Point := [Point.new 0 0 5]

/-- A concrete hexagonal tile (center `(0,0,2)`, six boundary points at
distance `1`). -/
def tileW : Tile :=
  ⟨Point.new 0 0 2,
   [Point.new 1 0 2, Point.new 0 1 2, Point.new (-(1 : Q)) 0 2,
    Point.new 0 (-(1 : Q)) 2, Point.new 1 0 2, Point.new 0 1 2],
   [], []⟩

/-- The orientation `tileW.getOrientation` computes. -/
def orientW : TileOrientation :=
  ⟨⟨1, 0, 0⟩, ⟨0, 0, 1⟩, ⟨0, -(1 : Q), 0⟩⟩

/-- The regular-hexagon parameters `tileW.getRegularHexagonParams` computes. -/
def paramsW : RegularHexagonParams := ⟨Point.new 0 0 2, 1, orientW⟩

/-- The canonical enumeration order of the 12 depth-0 groups. -/
def orderA : List ℕ := List.range 12

/-- The same 12 positions with the first two swapped: another possible
`HashMap` enumeration order. -/
def orderB : List ℕ := [1, 0, 2, 3, 4, 5, 6, 7, 8, 9, 10, 11]

/-! ## Helper lemmas about the rational kernel `Q` -/

theorem qnorm_zero_pos {d : Int} (hd : 0 < d) : qnorm 0 d = ⟨0, 1⟩ := by
  have hne : d ≠ 0 := ne_of_gt hd
  have hnlt : ¬d < 0 := not_lt.mpr hd.le
  simp only [qnorm, if_neg hne, if_neg hnlt, Int.gcd_zero_left,
    Int.natAbs_of_nonneg hd.le, Int.zero_ediv, Int.ediv_self hne]

theorem qnorm_self {x : Q} (hd : 0 < x.d) (hg : Int.gcd x.n x.d = 1) :
    qnorm x.n x.d = x := by
  have hne : x.d ≠ 0 := ne_of_gt hd
  have hnlt : ¬x.d < 0 := not_lt.mpr hd.le
  simp only [qnorm, if_neg hne, if_neg hnlt, hg]
  norm_num

theorem qnorm_canon (num : Int) {den : Int} (hden : 0 < den) :
    0 < (qnorm num den).d ∧ Int.gcd (qnorm num den).n (qnorm num den).d = 1 := by
  have hne : den ≠ 0 := ne_of_gt hden
  have hnlt : ¬den < 0 := not_lt.mpr hden.le
  have hgpos : 0 < Int.gcd num den := Int.gcd_pos_iff.mpr (Or.inr hne)
  have hgz : (0 : Int) < Int.gcd num den := by exact_mod_cast hgpos
  have hdvd : ((Int.gcd num den : ℕ) : Int) ∣ den := Int.gcd_dvd_right
  have hq : qnorm num den
      = ⟨num / Int.gcd num den, den / Int.gcd num den⟩ := by
    simp only [qnorm, if_neg hne, if_neg hnlt]
  rw [hq]
  constructor
  · have hcancel : den / Int.gcd num den * Int.gcd num den = den :=
      Int.ediv_mul_cancel hdvd
    nlinarith [hcancel]
  · exact Int.gcd_div_gcd_div_gcd hgpos

theorem qRoundAway_mul {d : Int} (m : Int) (hd : 0 < d) :
    qRoundAway (d * m) d = m := by
  have h2d : d ≠ 0 := ne_of_gt hd
  have key : ∀ m' : Int, 0 ≤ m' → (2 * (d * m') + d) / (2 * d) = m' := by
    intro m' _
    have h1 : 2 * (d * m') + d = d + 2 * d * m' := by ring
    rw [h1, Int.add_mul_ediv_left d m' (by positivity : (2 : Int) * d ≠ 0)]
    rw [Int.ediv_eq_zero_of_lt hd.le (by omega : d < 2 * d), zero_add]
  unfold qRoundAway
  by_cases hm : 0 ≤ m
  · rw [if_pos (mul_nonneg hd.le hm), key m hm]
  · have hneg : m < 0 := not_le.mp hm
    have : ¬0 ≤ d * m := not_le.mpr (mul_neg_of_pos_of_neg hd hneg)
    rw [if_neg this]
    have h2 : -(d * m) = d * (-m) := by ring
    rw [h2, key (-m) (by omega)]
    omega

theorem quant_idem (u : Q) : quant (quant u) = quant u := by
  show quant (qnorm (qRoundAway (u.n * 1000) u.d) 1000)
    = qnorm (qRoundAway (u.n * 1000) u.d) 1000
  generalize qRoundAway (u.n * 1000) u.d = k
  have h1000 : (1000 : Int) ≠ 0 := by decide
  have hnlt : ¬(1000 : Int) < 0 := by decide
  have hq : qnorm k 1000 = ⟨k / Int.gcd k 1000, 1000 / Int.gcd k 1000⟩ := by
    simp only [qnorm, if_neg h1000, if_neg hnlt]
  have hgpos : 0 < Int.gcd k 1000 := Int.gcd_pos_iff.mpr (Or.inr h1000)
  have hgz : (0 : Int) < (Int.gcd k 1000 : Int) := by exact_mod_cast hgpos
  have hgne : ((Int.gcd k 1000 : ℕ) : Int) ≠ 0 := ne_of_gt hgz
  have hdvdd : ((Int.gcd k 1000 : ℕ) : Int) ∣ 1000 := Int.gcd_dvd_right
  have hdvdk : ((Int.gcd k 1000 : ℕ) : Int) ∣ k := Int.gcd_dvd_left
  have hdenpos : 0 < 1000 / (Int.gcd k 1000 : Int) := by
    have hcancel : 1000 / (Int.gcd k 1000 : Int) * (Int.gcd k 1000 : Int) = 1000 :=
      Int.ediv_mul_cancel hdvdd
    nlinarith [hcancel]
  have e1 : (Int.gcd k 1000 : Int) * (1000 / (Int.gcd k 1000 : Int)) = 1000 :=
    Int.mul_ediv_cancel' hdvdd
  have e2 : (Int.gcd k 1000 : Int) * (k / (Int.gcd k 1000 : Int)) = k :=
    Int.mul_ediv_cancel' hdvdk
  have harg : k / (Int.gcd k 1000 : Int) * 1000
      = 1000 / (Int.gcd k 1000 : Int) * k := by
    calc k / (Int.gcd k 1000 : Int) * 1000
        = k / (Int.gcd k 1000 : Int)
          * ((Int.gcd k 1000 : Int) * (1000 / (Int.gcd k 1000 : Int))) := by rw [e1]
      _ = (Int.gcd k 1000 : Int) * (k / (Int.gcd k 1000 : Int))
          * (1000 / (Int.gcd k 1000 : Int)) := by ring
      _ = 1000 / (Int.gcd k 1000 : Int) * k := by rw [e2]; ring
  have hround : qRoundAway (k / (Int.gcd k 1000 : Int) * 1000)
      (1000 / (Int.gcd k 1000 : Int)) = k := by
    rw [harg]
    exact qRoundAway_mul k hdenpos
  rw [hq]
  show qnorm (qRoundAway (k / (Int.gcd k 1000 : Int) * 1000)
    (1000 / (Int.gcd k 1000 : Int))) 1000 = _
  rw [hround, hq]

theorem quant_canon (t : Q) :
    0 < (quant t).d ∧ Int.gcd (quant t).n (quant t).d = 1 :=
  qnorm_canon _ (by decide)

theorem coord_segment_one {cx v : Q} (hc : 0 < cx.d) (hv1 : 0 < v.d)
    (hv2 : Int.gcd v.n v.d = 1) : cx * (1 - (1 : Q)) + v * 1 = v := by
  have h0 : (1 : Q) - (1 : Q) = ⟨0, 1⟩ := by decide
  rw [h0]
  have h1 : cx * (⟨0, 1⟩ : Q) = ⟨0, 1⟩ := by
    show qnorm (cx.n * 0) (cx.d * 1) = ⟨0, 1⟩
    rw [mul_zero, mul_one]
    exact qnorm_zero_pos hc
  rw [h1]
  have h2 : v * (1 : Q) = v := by
    show qnorm (v.n * 1) (v.d * 1) = v
    rw [mul_one, mul_one]
    exact qnorm_self hv1 hv2
  rw [h2]
  show qnorm (0 * v.d + v.n * 1) (1 * v.d) = v
  rw [zero_mul, mul_one, zero_add, one_mul]
  exact qnorm_self hv1 hv2

theorem point_new_quant (x y z : Q) :
    Point.new (quant x) (quant y) (quant z) = Point.new x y z := by
  show (⟨quant (quant x), quant (quant y), quant (quant z)⟩ : Point)
    = ⟨quant x, quant y, quant z⟩
  rw [quant_idem, quant_idem, quant_idem]

/-- With `hex_size = 1`, the boundary point `Tile::new` derives from a face is
exactly the face's (quantized) centroid, for any center with well-formed
(positive-denominator) coordinates. -/
theorem segment_one_getCentroid (c : Point) (f : Face) (hx : 0 < c.x.d)
    (hy : 0 < c.y.d) (hz : 0 < c.z.d) :
    c.segment f.getCentroid 1 = f.getCentroid := by
  have hcl : qClamp 1 0 1 = (1 : Q) := by decide
  show Point.new (c.x * (1 - qClamp 1 0 1) + f.getCentroid.x * qClamp 1 0 1)
    (c.y * (1 - qClamp 1 0 1) + f.getCentroid.y * qClamp 1 0 1)
    (c.z * (1 - qClamp 1 0 1) + f.getCentroid.z * qClamp 1 0 1) = f.getCentroid
  rw [hcl]
  have hx1 : 0 < f.getCentroid.x.d := (quant_canon ((f.p0.x + f.p1.x + f.p2.x) / 3)).1
  have hx2 : Int.gcd f.getCentroid.x.n f.getCentroid.x.d = 1 :=
    (quant_canon ((f.p0.x + f.p1.x + f.p2.x) / 3)).2
  have hy1 : 0 < f.getCentroid.y.d := (quant_canon ((f.p0.y + f.p1.y + f.p2.y) / 3)).1
  have hy2 : Int.gcd f.getCentroid.y.n f.getCentroid.y.d = 1 :=
    (quant_canon ((f.p0.y + f.p1.y + f.p2.y) / 3)).2
  have hz1 : 0 < f.getCentroid.z.d := (quant_canon ((f.p0.z + f.p1.z + f.p2.z) / 3)).1
  have hz2 : Int.gcd f.getCentroid.z.n f.getCentroid.z.d = 1 :=
    (quant_canon ((f.p0.z + f.p1.z + f.p2.z) / 3)).2
  rw [coord_segment_one hx hx1 hx2, coord_segment_one hy hy1 hy2,
    coord_segment_one hz hz1 hz2]
  exact point_new_quant _ _ _

/-- Reversing the boundary (the orientation fix) preserves membership. -/
theorem fix_boundary_mem (t : Tile) (p : Point) (h : p ∈ t.boundary) :
    p ∈ (Tile.fixBoundaryOrientation t).boundary := by
  unfold Tile.fixBoundaryOrientation
  split
  · dsimp only
    split
    · simpa [List.mem_reverse] using h
    · exact h
  · exact h

theorem tile_new_boundary_mem (c : Point) (s : List Face) (f : Face)
    (hx : 0 < c.x.d) (hy : 0 < c.y.d) (hz : 0 < c.z.d) (hf : f ∈ s) :
    f.getCentroid ∈ (Tile.new c s 1).boundary := by
  have hmem : f.getCentroid
      ∈ s.map (fun g => c.segment g.getCentroid (qClamp 1 (qnorm 1 100) 1)) := by
    have hcl : qClamp 1 (qnorm 1 100) 1 = (1 : Q) := by decide
    rw [hcl]
    exact List.mem_map.mpr ⟨f, hf, segment_one_getCentroid c f hx hy hz⟩
  exact fix_boundary_mem _ _ hmem

/-! ## Helper lemmas for neighbor resolution and order invariance -/

theorem lookupIdxGo_eq_none (id : Point) (ts : List Tile) (i : ℕ)
    (h : ∀ t ∈ ts, ¬t.centerPoint = id) : lookupIdxGo id ts i = none := by
  induction ts generalizing i with
  | nil => rfl
  | cons t ts ih =>
    have hne := h t (List.mem_cons_self t ts)
    simp only [lookupIdxGo, if_neg hne]
    exact ih (i + 1) (fun u hu => h u (List.mem_cons_of_mem _ hu))

/-- When no tile center occurs among any tile's raw neighbor identities, the
resolution pass leaves every tile with an empty resolved-neighbor list. -/
theorem resolveNeighbors_no_match (ts : List Tile)
    (h : ∀ t ∈ ts, ∀ id ∈ t.neighborIds, ∀ u ∈ ts, ¬u.centerPoint = id) :
    resolveNeighbors ts = ts.map (fun t => { t with neighbors := [] }) := by
  unfold resolveNeighbors
  apply List.map_congr_left
  intro t ht
  have hnil : t.neighborIds.filterMap (lookupIdx ts) = [] := by
    apply List.filterMap_eq_nil_iff.mpr
    intro id hid
    exact lookupIdxGo_eq_none id ts 0 (fun u hu => h t ht id hid u hu)
  rw [hnil]

/-! ## Claim theorems -/

/-- C1: the claim says the tile count is determined by the subdivision depth
alone with depth 1 yielding 42 tiles (general form `12 + 10·(4^depth − 1)`).
The code disagrees: `subdivide_face` splits each edge into `num_divisions`
segments, so depth 1 reproduces the 20 original triangles and the construction
yields 12 tiles at depth 1 (and `10·d² + 2` in general), exactly as at
depth 0. -/
theorem c1_tile_count_depth1 :
    (hexasphereTiles 1 1 1).length = 12 ∧ (hexasphereTiles 1 0 1).length = 12 := by
  constructor <;> decide

/-- C2: the claim says every tile's resolved neighbor list has the same length
as its boundary (5 or 6).  In the constructed hexasphere (radius 1, depth 0,
shrink 1) every tile has a 5-point boundary but an *empty* resolved neighbor
list: the raw neighbor identities are strings of unprojected subdivision
vertices while the lookup keys are strings of projected tile centers, so no
identity ever resolves. -/
theorem c2_neighbors_empty_but_boundary_five :
    (hexasphereTiles 1 0 1) ≠ [] ∧
      (hexasphereTiles 1 0 1).all
        (fun t => t.neighbors.isEmpty && decide (t.boundary.length = 5)) = true := by
  constructor <;> decide

/-- C3 (counterexample): a correspondence-lookup failure does not fail
construction.  With a projected pool whose sole point matches only the third
vertex of the face, the lookups for the first two vertices return `none`, yet
the grouping step returns normally with those vertices silently dropped. -/
theorem c3_lookup_failure_not_fatal :
    findProjectedPoint (Point.new 1000 0 0) poolW = none ∧
      pointToFaces [faceW] poolW = [(Point.new 0 0 5, [0])] := by
  constructor <;> decide

/-- C3 (amended): when the correspondence lookup for a face vertex fails, the
construction does not fail; the vertex's face association is silently skipped —
the grouping accumulator is left unchanged. -/
theorem c3_lookup_failure_skips (projected : List Point)
    (acc : List (Point × List ℕ)) (faceIdx : ℕ) (p : Point)
    (h : findProjectedPoint p projected = none) :
    processVertex projected acc faceIdx p = acc := by
  unfold processVertex
  rw [h]

/-- C3 witness: the amended theorem applied at a concrete failing lookup. -/
theorem c3_lookup_failure_skips_witness :
    findProjectedPoint (Point.new 1000 0 0) poolW = none ∧
      processVertex poolW [] 0 (Point.new 1000 0 0) = [] :=
  ⟨by decide, c3_lookup_failure_skips poolW [] 0 (Point.new 1000 0 0) (by decide)⟩

/-- C4 (counterexample): two runs of the construction differing only in the
`HashMap` enumeration order of `point_to_faces` (identity order vs. first two
entries swapped) produce different tile orders at identical arguments
(radius 1, depth 0, shrink 1). -/
theorem c4_tile_order_differs :
    hexasphereTilesOrdered 1 0 1 orderA ≠ hexasphereTilesOrdered 1 0 1 orderB := by
  decide

/-- C4 (amended): for identical (radius, depth, shrink) arguments, any two
enumeration orders that are permutations of one another produce
permutation-equal tile lists — the same multiset of tiles, each with identical
boundary and identical (empty) resolved neighbor set — but not necessarily the
same tile order.  The side condition (no tile center occurs among neighbor
identities, which makes every resolved neighbor list empty and hence
order-independent) holds in the actual construction and is discharged by
evaluation in the witness. -/
theorem c4_construction_perm (radius : Q) (numDivisions : ℕ) (hexSize : Q)
    (o1 o2 : List ℕ) (hperm : o1.Perm o2)
    (hres : ∀ g ∈ (constructionGroups radius numDivisions).2,
      ∀ g' ∈ (constructionGroups radius numDivisions).2,
        ¬(tileOfGroup (constructionGroups radius numDivisions).1 hexSize g').centerPoint
          ∈ (tileOfGroup (constructionGroups radius numDivisions).1 hexSize g).neighborIds) :
    (hexasphereTilesOrdered radius numDivisions hexSize o1).Perm
      (hexasphereTilesOrdered radius numDivisions hexSize o2) := by
  have key : ∀ o : List ℕ,
      hexasphereTilesOrdered radius numDivisions hexSize o
        = (o.filterMap (fun i => (constructionGroups radius numDivisions).2.get? i)).map
            (fun g =>
              { tileOfGroup (constructionGroups radius numDivisions).1 hexSize g with
                  neighbors := [] }) := by
    intro o
    show resolveNeighbors
        ((o.filterMap (fun i => (constructionGroups radius numDivisions).2.get? i)).map
          (tileOfGroup (constructionGroups radius numDivisions).1 hexSize)) = _
    rw [resolveNeighbors_no_match, List.map_map]
    · rfl
    · intro t ht id hid u hu
      obtain ⟨g, hg, rfl⟩ := List.mem_map.mp ht
      obtain ⟨g', hg', rfl⟩ := List.mem_map.mp hu
      obtain ⟨i, _, hgi⟩ := List.mem_filterMap.mp hg
      obtain ⟨j, _, hgj⟩ := List.mem_filterMap.mp hg'
      intro heq
      cases heq
      exact hres g (List.get?_mem hgi) g' (List.get?_mem hgj) hid
  rw [key o1, key o2]
  exact (hperm.filterMap _).map _

/-- C4 witness: the amended theorem at the two concrete orders of the
counterexample. -/
theorem c4_construction_perm_witness :
    (hexasphereTilesOrdered 1 0 1 orderA).Perm (hexasphereTilesOrdered 1 0 1 orderB) :=
  c4_construction_perm 1 0 1 orderA orderB (by decide) (by decide)

/-- C6 (counterexample): projecting the origin does not fail with a
precondition violation — `Point::project` performs the division by the zero
magnitude and returns a `Point`; in the refined model its coordinates are all
non-finite (`radius/0 = +inf`, then `0·inf = NaN`). -/
theorem c6_project_origin_returns :
    projectF 0 0 0 1 1 = (none, none, none) := by
  decide

/-- C6 (amended): for an origin-coincident point `Point::project` never fails:
for every radius and percent it returns a `Point` whose three coordinates are
non-finite. -/
theorem c6_project_origin_nonfinite (radius percent : Q) :
    projectF 0 0 0 radius percent = (none, none, none) := by
  rfl

/-- C7: `Point::new(0,0,0)` and `Point::new(-0.0001,0,0)` compare equal
(`-0.0 == 0.0` under `f64`/derived `PartialEq`) but their hash inputs differ:
the `Display` strings are `"0,0,0"` and `"-0,0,0"`.  Hashing is therefore not
a function of the rounded coordinate values alone, breaking the `Eq`/`Hash`
contract the deduplication maps rely on. -/
theorem c7_eq_hash_contract_broken :
    PointF.eq (PointF.new 0 0 0) (PointF.new (qnorm (-1) 10000) 0 0) = true ∧
      PointF.hashKey (PointF.new 0 0 0)
        ≠ PointF.hashKey (PointF.new (qnorm (-1) 10000) 0 0) := by
  constructor <;> decide

/-- C8: with `shrink = 1.0` a boundary point that two tiles derive from one
shared face is numerically identical in both boundaries: it is exactly the
face's quantized centroid, independent of either tile's center (hence of
radius and depth; the hypotheses on the centers' coordinate denominators are
well-formedness facts true of every pipeline value). -/
theorem c8_shared_face_shared_boundary_point (c1 c2 : Point) (s1 s2 : List Face)
    (f : Face) (h1x : 0 < c1.x.d) (h1y : 0 < c1.y.d) (h1z : 0 < c1.z.d)
    (h2x : 0 < c2.x.d) (h2y : 0 < c2.y.d) (h2z : 0 < c2.z.d)
    (hf1 : f ∈ s1) (hf2 : f ∈ s2) :
    f.getCentroid ∈ (Tile.new c1 s1 1).boundary ∧
      f.getCentroid ∈ (Tile.new c2 s2 1).boundary :=
  ⟨tile_new_boundary_mem c1 s1 f h1x h1y h1z hf1,
    tile_new_boundary_mem c2 s2 f h2x h2y h2z hf2⟩

/-- C8 witness: the theorem at two concrete centers and concrete stars sharing
the face `faceW`. -/
theorem c8_shared_face_witness :
    faceW.getCentroid ∈ (Tile.new (Point.new 1 0 0) [faceW] 1).boundary ∧
      faceW.getCentroid ∈ (Tile.new (Point.new 0 1 0) [faceW, faceW2] 1).boundary :=
  c8_shared_face_shared_boundary_point (Point.new 1 0 0) (Point.new 0 1 0)
    [faceW] [faceW, faceW2] faceW (by decide) (by decide) (by decide) (by decide)
    (by decide) (by decide) (by decide) (by decide)

/-- C9: at `construct(radius = 1.0, depth = 0, shrink = 1.0)` the code does
produce 12 tiles with 5-point boundaries, but every tile has 0 resolved
neighbors (not 5), and every boundary point lies at squared distance greater
than `10⁶` from the origin (the boundary is built from *unprojected* face
centroids at icosahedron scale), not at distance ≈ 1.0. -/
theorem c9_depth0_scenario_divergence :
    (hexasphereTiles 1 0 1).length = 12 ∧
      (hexasphereTiles 1 0 1).all (fun t => decide (t.boundary.length = 5)) = true ∧
      (hexasphereTiles 1 0 1).all (fun t => t.neighbors.isEmpty) = true ∧
      (hexasphereTiles 1 0 1).all (fun t => t.boundary.all
        (fun b => decide ((1000000 : Q) < b.x * b.x + b.y * b.y + b.z * b.z))) = true := by
  refine ⟨by decide, by decide, by decide, by decide⟩

/-- C10: `get_regular_hexagon_params` returns `Some` exactly for 6-point
boundaries, and then its center is the tile's center point and its radius the
tile's average center-to-boundary distance; `get_orientation` returns `None`
exactly for an empty boundary. -/
theorem c10_hexagon_params_characterization (t : Tile) :
    ((t.getRegularHexagonParams).isSome ↔ t.boundary.length = 6) ∧
      (∀ ps, t.getRegularHexagonParams = some ps →
        ps.center = t.centerPoint ∧ ps.radius = t.getAverageRadius) ∧
      (t.getOrientation = none ↔ t.boundary = []) := by
  have horia : t.getOrientation = none ↔ t.boundary = [] := by
    unfold Tile.getOrientation
    by_cases hb : t.boundary.isEmpty
    · simp [hb, List.isEmpty_iff.mp hb]
    · simp only [if_neg hb]
      simp only [List.isEmpty_iff] at hb
      simp [hb]
  have heq : t.getRegularHexagonParams
      = if t.boundary.length = 6 then
          (match t.getOrientation with
           | none => none
           | some o => some ⟨t.centerPoint, t.getAverageRadius, o⟩)
        else none := by
    unfold Tile.getRegularHexagonParams Tile.isHexagon
    by_cases h6 : t.boundary.length = 6 <;> simp [h6]
  refine ⟨?_, ?_, horia⟩
  · rw [heq]
    by_cases h6 : t.boundary.length = 6
    · cases ho : t.getOrientation with
      | none =>
        exfalso
        have hnil := horia.mp ho
        rw [hnil] at h6
        simp at h6
      | some o => simp [h6, ho]
    · simp [h6]
  · intro ps hps
    rw [heq] at hps
    by_cases h6 : t.boundary.length = 6
    · rw [if_pos h6] at hps
      cases ho : t.getOrientation with
      | none => rw [ho] at hps; simp at hps
      | some o =>
        rw [ho] at hps
        injection hps with hps
        rw [← hps]
        exact ⟨rfl, rfl⟩
    · rw [if_neg h6] at hps
      simp at hps

/-- C10 witness: the characterization at the concrete hexagonal tile `tileW`,
whose parameters evaluate to `paramsW`. -/
theorem c10_hexagon_params_witness :
    (tileW.getRegularHexagonParams).isSome ∧
      paramsW.center = tileW.centerPoint ∧ paramsW.radius = tileW.getAverageRadius :=
  ⟨(c10_hexagon_params_characterization tileW).1.mpr (by decide),
    (c10_hexagon_params_characterization tileW).2.1 paramsW (by decide)⟩

end Geotiles
